import Mathlib

/-!
Verification of the `iot_iam` log-cache library (`src/iot_iam/db.py`,
`src/iot_iam/core.py`, `src/iot_iam/utils.py`) against its specification.

The SQLite-backed store (`DeviceDB` in `db.py`) is modelled as an explicit
state `DBState`; each Python method becomes a Lean function on that state.
Every store method wraps its body in `try/except CacheError`; a raised
`CacheError` (storage fault) is modelled by the Boolean `fail` argument:
`fail = true` runs the `except` branch (state unchanged, fallback value
returned), `fail = false` runs the normal body.

SQLite semantics used by the model:
  * `INSERT OR IGNORE` on a `UNIQUE` column skips the row when the key is
    already present and reports no error;
  * `INSERT OR REPLACE` keyed by the primary key deletes any conflicting
    row and inserts the new row;
  * a negative `LIMIT` means "no upper bound on the number of rows"; a
    zero `LIMIT` returns no rows;
  * `ORDER BY timestamp DESC` is satisfied by the descending index
    `idx_logs_timestamp`; an index scan yields equal-timestamp rows in
    rowid (insertion) order, so the query is a stable descending sort of
    the insertion-ordered table.
-/

/-- A row of the `logs` table (`db.py`, `_create_tables`): `id` is the
AUTOINCREMENT rowid, `success` is stored as `int(success)` and modelled as
the Bool it encodes, `createdAt` is the wall-clock default
`strftime('%s','now')` supplied at insertion time. -/
structure LogRow where
  id : Nat
  device : String
  success : Bool
  reason : String
  timestamp : Int
  txHash : String
  createdAt : Int
deriving DecidableEq

/-- A row of the `devices` table (`db.py`, `_create_tables`). -/
structure DeviceRow where
  address : String
  name : String
  role : String
  metadata : String
  registeredAt : Int
  updatedAt : Int
deriving DecidableEq

/-- The state of the SQLite cache: the two tables and the AUTOINCREMENT
counter of `logs`. `logs` is kept in insertion (rowid) order. -/
structure DBState where
  devices : List DeviceRow
  logs : List LogRow
  nextId : Nat
deriving DecidableEq

/-- A freshly created cache (`_create_tables` on a new file): both tables
empty, AUTOINCREMENT starts at 1. -/
def emptyDB : DBState := ⟨[], [], 1⟩

/-- Whether some `logs` row already carries the transaction hash `h`
(the `UNIQUE` constraint on `txHash`). -/
def hashPresent (db : DBState) (h : String) : Bool :=
  db.logs.any fun r => r.txHash == h

/-- `DeviceDB.insert_log` (`db.py` 130-163): `INSERT OR IGNORE INTO logs`.
A duplicate `txHash` is silently skipped; the method returns `True` unless
the storage layer raised `CacheError` (`fail`), in which case the
transaction is rolled back and `False` is returned. -/
def insert_log (fail : Bool) (db : DBState) (device : String) (success : Bool)
    (reason : String) (timestamp : Int) (tx_hash : String) (now : Int) :
    DBState × Bool :=
  if fail then (db, false)
  else if hashPresent db tx_hash then (db, true)
  else ({ db with
            logs := db.logs ++ [⟨db.nextId, device, success, reason, timestamp, tx_hash, now⟩],
            nextId := db.nextId + 1 }, true)

/-- `DeviceDB.insert_device` (`db.py` 95-128): `INSERT OR REPLACE INTO
devices` keyed by the primary key `address`; any existing row for the
address is replaced wholesale, `updatedAt` is set to the current time
`now` (`strftime('%s','now')`). -/
def insert_device (fail : Bool) (db : DBState) (address name role metadata : String)
    (registered_at : Int) (now : Int) : DBState × Bool :=
  if fail then (db, false)
  else ({ db with
            devices := (db.devices.filter fun r => !(r.address == address))
              ++ [⟨address, name, role, metadata, registered_at, now⟩] }, true)

/-- Stable insertion step for the descending-timestamp sort: `x` (earlier
in insertion order) is placed before every later row whose timestamp is
not larger. -/
def insertByTs (x : LogRow) : List LogRow → List LogRow
  | [] => [x]
  | y :: ys => if y.timestamp ≤ x.timestamp then x :: y :: ys else y :: insertByTs x ys

/-- The result order of `SELECT * FROM logs ORDER BY timestamp DESC`: a
stable sort of the insertion-ordered table by descending `timestamp`
(equal timestamps keep rowid order, as the scan of `idx_logs_timestamp`
produces them). -/
def sortLogsDesc : List LogRow → List LogRow
  | [] => []
  | x :: xs => insertByTs x (sortLogsDesc xs)

/-- `DeviceDB.fetch_logs` (`db.py` 181-202): `SELECT * FROM logs ORDER BY
timestamp DESC LIMIT ?`. A negative bound value means no limit in SQLite;
on `CacheError` the method returns `[]`. -/
def fetch_logs (fail : Bool) (db : DBState) (limit : Int) : List LogRow :=
  if fail then []
  else
    let sorted := sortLogsDesc db.logs
    if limit < 0 then sorted else sorted.take limit.toNat

/-- `DeviceDB.get_device` (`db.py` 204-221): `SELECT * FROM devices WHERE
address = ?` and `fetchone`; `None` when absent or on `CacheError`. -/
def get_device (fail : Bool) (db : DBState) (address : String) : Option DeviceRow :=
  if fail then none
  else db.devices.find? fun r => r.address == address

/-- `DeviceDB.get_device_logs` (`db.py` 223-250): like `fetch_logs` but
filtered by `device = ?`. -/
def get_device_logs (fail : Bool) (db : DBState) (address : String) (limit : Int) :
    List LogRow :=
  if fail then []
  else
    let sorted := sortLogsDesc (db.logs.filter fun r => r.device == address)
    if limit < 0 then sorted else sorted.take limit.toNat

/-- The dictionary returned by `DeviceDB.get_stats`. -/
structure Stats where
  total_devices : Nat
  total_logs : Nat
deriving DecidableEq

/-- `DeviceDB.get_stats` (`db.py` 252-273): fresh `COUNT(*)` of both
tables; zero counts on `CacheError`. -/
def get_stats (fail : Bool) (db : DBState) : Stats :=
  if fail then ⟨0, 0⟩ else ⟨db.devices.length, db.logs.length⟩

/-- Status field of the uniform response envelope built by
`build_response` (`utils.py` 53-86). -/
inductive Status
  | success
  | failed
  | error
deriving DecidableEq

/-- A loosely typed Python value, as found in the tuple returned by a
read-only device call (`core.py` 387-394 indexes it positionally). -/
inductive PyVal
  | s (v : String)
  | i (v : Int)
  | b (v : Bool)
deriving DecidableEq

/-- `device[k] if len(device) > k else dflt` (`core.py` 389-393). -/
def tupleGet (t : List PyVal) (k : Nat) (dflt : PyVal) : PyVal :=
  if h : k < t.length then t.get ⟨k, h⟩ else dflt

/-- The `device_info` dictionary built by `get_device_info`
(`core.py` 387-394). -/
structure DeviceInfo where
  address : String
  name : PyVal
  role : PyVal
  metadata : PyVal
  registered_at : PyVal
  is_registered : PyVal
deriving DecidableEq

/-- The response envelope (`build_response`): keys absent from a given
response are `none`. -/
structure Response where
  status : Status
  message : Option String := none
  tx_hash : Option String := none
  gas_used : Option Nat := none
  has_access : Option Bool := none
  data_device : Option DeviceInfo := none
deriving DecidableEq

/-- One event record as assembled by `IAMClient.get_logs` (`core.py`
441-450) from a ledger event entry. -/
structure LogEvent where
  device : String
  success : Bool
  reason : String
  timestamp : Int
  tx_hash : String
deriving DecidableEq

/-- The caching loop of `IAMClient.sync_cache` (`core.py` 471-478):
`insert_log` applied in order to each fetched event, keeping only the
state (each call's Boolean result is discarded by the source). -/
def foldInsert (db : DBState) (evs : List LogEvent) (now : Int) : DBState :=
  evs.foldl
    (fun d e => (insert_log false d e.device e.success e.reason e.timestamp e.tx_hash now).1)
    db

/-- `IAMClient.sync_cache` (`core.py` 458-484). `get_logs` always returns
an envelope (it catches its own exceptions): `Except.ok evs` models
`{status: 'success', data: evs}` and `Except.error msg` models
`{status: 'error', message: msg}`. When the fetch status is not
`'success'` the source skips the insertion loop but still falls through
to `return build_response(status='success', message='Cache synced')`;
the surrounding `except` branch is unreachable because both `get_logs`
and `insert_log` catch their own exceptions. -/
def sync_cache (fetched : Except String (List LogEvent)) (db : DBState) (now : Int) :
    DBState × Response :=
  match fetched with
  | Except.ok evs => (foldInsert db evs now, { status := Status.success, message := some "Cache synced" })
  | Except.error _ => (db, { status := Status.success, message := some "Cache synced" })

/-- ASCII hexadecimal digit. -/
def isHexDigitChar (c : Char) : Bool :=
  c.isDigit || ('a' ≤ c && c ≤ 'f') || ('A' ≤ c && c ≤ 'F')

/-- `validate_address` (`utils.py` 36-50): returns `True` iff
`Web3.to_checksum_address` (external web3 library) accepts the string.
Its acceptance is modelled as a `0x`-prefixed string of 40 hexadecimal
digits; the EIP-55 rejection of a wrongly mixed-case address, which only
shrinks the accepted set further, is not modelled — every claim uses
only the rejecting branch. -/
def validate_address (address : String) : Bool :=
  let cs := address.data
  cs.length == 42 && (cs.take 2 == ['0', 'x']) && (cs.drop 2).all isHexDigitChar

/-- Outcome of submitting one transaction through the ledger collaborator
(web3), as observed by `IAMClient._send_transaction` (`core.py` 135-186):
a mined receipt with status 1 or 0, a `ContractLogicError`, or any other
exception. -/
inductive TxOutcome
  | receiptOk (txHash : String) (gasUsed : Nat)
  | receiptFailed (txHash : String)
  | logicError (msg : String)
  | exn (msg : String)
deriving DecidableEq

/-- The external ledger collaborator (web3 contract handle) as the facade
observes it: the outcome of submitting to a named contract function,
which read functions the ABI exposes, and the results of read calls.
Call arguments are not modelled; the trace records which contract
functions are invoked. -/
structure Ledger where
  txOutcome : String → TxOutcome
  hasCheckAccess : Bool
  hasHasAccess : Bool
  hasIsAuthorized : Bool
  accessCall : Except String Bool
  hasGetDevice : Bool
  hasDevices : Bool
  hasGetDeviceInfo : Bool
  deviceCall : Except String (List PyVal)

/-- `IAMClient._send_transaction` (`core.py` 135-186), for the contract
function named `fn`: returns the envelope and the one-element trace of
ledger calls made. -/
def send_transaction (L : Ledger) (fn : String) : Response × List String :=
  (match L.txOutcome fn with
   | TxOutcome.receiptOk h g => { status := Status.success, tx_hash := some h, gas_used := some g }
   | TxOutcome.receiptFailed h =>
       { status := Status.failed, tx_hash := some h, message := some "Transaction reverted" }
   | TxOutcome.logicError m =>
       { status := Status.error, message := some ("Contract error: " ++ m) }
   | TxOutcome.exn m => { status := Status.error, message := some m },
   [fn])

/-- The envelope `build_response(status='error', message="Invalid
Ethereum address")` returned by every facade operation that rejects its
address argument. -/
def invalidAddressResp : Response :=
  { status := Status.error, message := some "Invalid Ethereum address" }

/-- `IAMClient.register_device` (`core.py` 188-227). The result carries
the envelope, the trace of contract functions invoked on the ledger, and
the cache state (the source method never touches `_cache_manager`, so
the state is passed through unchanged on every path). -/
def register_device (L : Ledger) (db : DBState) (address name role metadata : String) :
    Response × List String × DBState :=
  if !validate_address address then (invalidAddressResp, [], db)
  else
    let (r, t) := send_transaction L "registerDevice"
    (r, t, db)

/-- `IAMClient.grant_access` (`core.py` 229-253). -/
def grant_access (L : Ledger) (db : DBState) (address : String) (expiry : Int) :
    Response × List String × DBState :=
  if !validate_address address then (invalidAddressResp, [], db)
  else
    let (r, t) := send_transaction L "grantAccess"
    (r, t, db)

/-- `IAMClient.revoke_access` (`core.py` 255-277). -/
def revoke_access (L : Ledger) (db : DBState) (address : String) :
    Response × List String × DBState :=
  if !validate_address address then (invalidAddressResp, [], db)
  else
    let (r, t) := send_transaction L "revokeAccess"
    (r, t, db)

/-- `IAMClient.assign_role` (`core.py` 279-303). -/
def assign_role (L : Ledger) (db : DBState) (address role : String) :
    Response × List String × DBState :=
  if !validate_address address then (invalidAddressResp, [], db)
  else
    let (r, t) := send_transaction L "assignRole"
    (r, t, db)

/-- Envelope built by `check_access` from the result of the chosen
read-only call: `{status: 'success', has_access: b}` on success, the
caught exception's message otherwise. -/
def accessRespOf : Except String Bool → Response
  | Except.ok b => { status := Status.success, has_access := some b }
  | Except.error m => { status := Status.error, message := some m }

/-- `IAMClient.check_access` (`core.py` 305-338): probes the ABI for
`checkAccess`, then `hasAccess`, then `isAuthorized`, calls the first one
present, and errors without any ledger call when none exists. -/
def check_access (L : Ledger) (db : DBState) (address : String) :
    Response × List String × DBState :=
  if !validate_address address then (invalidAddressResp, [], db)
  else if L.hasCheckAccess then (accessRespOf L.accessCall, ["checkAccess"], db)
  else if L.hasHasAccess then (accessRespOf L.accessCall, ["hasAccess"], db)
  else if L.hasIsAuthorized then (accessRespOf L.accessCall, ["isAuthorized"], db)
  else ({ status := Status.error, message := some "Access check function not found in contract" },
        [], db)

/-- Envelope built by `get_device_info` from the result of the chosen
read-only call (`core.py` 387-401): the positionally indexed tuple with
defaults, or the caught exception's message. -/
def deviceRespOf (address : String) : Except String (List PyVal) → Response
  | Except.ok t =>
      { status := Status.success,
        data_device := some
          { address := address,
            name := tupleGet t 0 (PyVal.s ""),
            role := tupleGet t 1 (PyVal.s ""),
            metadata := tupleGet t 2 (PyVal.s ""),
            registered_at := tupleGet t 3 (PyVal.i 0),
            is_registered := tupleGet t 4 (PyVal.b false) } }
  | Except.error m => { status := Status.error, message := some m }

/-- `IAMClient.get_device_info` (`core.py` 361-401): probes the ABI for
`getDevice`, then `devices`, then `getDeviceInfo`, calls the first one
present, and errors without any ledger call when none exists. -/
def get_device_info (L : Ledger) (db : DBState) (address : String) :
    Response × List String × DBState :=
  if !validate_address address then (invalidAddressResp, [], db)
  else if L.hasGetDevice then (deviceRespOf address L.deviceCall, ["getDevice"], db)
  else if L.hasDevices then (deviceRespOf address L.deviceCall, ["devices"], db)
  else if L.hasGetDeviceInfo then (deviceRespOf address L.deviceCall, ["getDeviceInfo"], db)
  else ({ status := Status.error, message := some "Device info function not found in contract" },
        [], db)

/-- A recorded call to `insert_log`: its arguments together with the
storage-fault flag and the wall-clock `createdAt` default of that call. -/
structure InsertLogCall where
  fail : Bool
  device : String
  success : Bool
  reason : String
  timestamp : Int
  tx_hash : String
  now : Int
deriving DecidableEq

/-- Run a sequence of `insert_log` calls against a starting state,
keeping the state (each call's Boolean result goes to the caller). -/
def applyInserts (db : DBState) (ops : List InsertLogCall) : DBState :=
  ops.foldl
    (fun d o => (insert_log o.fail d o.device o.success o.reason o.timestamp o.tx_hash o.now).1)
    db

/-- A recorded call to `insert_device`. -/
structure DeviceCall where
  fail : Bool
  address : String
  name : String
  role : String
  metadata : String
  registered_at : Int
  now : Int
deriving DecidableEq

/-- Run a sequence of `insert_device` calls against a starting state. -/
def applyDeviceInserts (db : DBState) (ops : List DeviceCall) : DBState :=
  ops.foldl
    (fun d o => (insert_device o.fail d o.address o.name o.role o.metadata o.registered_at o.now).1)
    db

/-- The order in which `fetch_logs` emits rows: strictly more recent
timestamps first; rows with equal timestamps in ascending `id`
(insertion) order, as the scan of `idx_logs_timestamp` yields them. -/
def relDesc (a b : LogRow) : Prop :=
  b.timestamp < a.timestamp ∨ (a.timestamp = b.timestamp ∧ a.id < b.id)

/-- Store invariant: `logs` is in strictly increasing `id` order and all
ids are below the AUTOINCREMENT counter. -/
def idBounded (db : DBState) : Prop :=
  db.logs.Pairwise (fun a b => a.id < b.id) ∧ ∀ r ∈ db.logs, r.id < db.nextId

/-- Store invariant: the `UNIQUE` constraint on `logs.txHash`. -/
def hashesNodup (db : DBState) : Prop :=
  (db.logs.map LogRow.txHash).Nodup

/-- Store invariant: the primary-key constraint on `devices.address`. -/
def addrNodup (db : DBState) : Prop :=
  (db.devices.map DeviceRow.address).Nodup

/-- Witness store: one log row with txHash "h". -/
def dbOneLog : DBState := (insert_log false emptyDB "d" true "r" 5 "h" 9).1

/-- Witness store: two rows sharing timestamp 100, inserted "h1" before
"h2". -/
def dbTie : DBState :=
  applyInserts emptyDB
    [⟨false, "dA", true, "r1", 100, "h1", 1⟩, ⟨false, "dB", false, "r2", 100, "h2", 2⟩]

/-- Witness store: rows with timestamps 100, 300, 200, the ordering
example of the spec. -/
def dbOrdering : DBState :=
  applyInserts emptyDB
    [⟨false, "d1", true, "r1", 100, "h1", 1⟩, ⟨false, "d2", true, "r2", 300, "h2", 2⟩,
     ⟨false, "d3", true, "r3", 200, "h3", 3⟩]

/-- Witness store: address "0xA" first cached with name "X" and
`registered_at` 100, then re-cached with name "Y" and `registered_at`
200. -/
def dbDeviceTwice : DBState :=
  (insert_device false (insert_device false emptyDB "0xA" "X" "sensor" "" 100 10).1
    "0xA" "Y" "sensor" "" 200 20).1

/-- Witness ledger oracle. -/
def ledgerW : Ledger :=
  { txOutcome := fun _ => TxOutcome.exn "unreachable",
    hasCheckAccess := true, hasHasAccess := false, hasIsAuthorized := false,
    accessCall := Except.ok true,
    hasGetDevice := true, hasDevices := false, hasGetDeviceInfo := false,
    deviceCall := Except.ok [] }

/-! ### Basic lemmas about `insert_log` -/

lemma hashPresent_iff {db : DBState} {h : String} :
    hashPresent db h = true ↔ ∃ r ∈ db.logs, r.txHash = h := by
  simp [hashPresent, List.any_eq_true, beq_iff_eq]

lemma insert_log_present (db : DBState) (d : String) (s : Bool) (r : String) (t : Int)
    (hx : String) (now : Int) (h : hashPresent db hx = true) :
    insert_log false db d s r t hx now = (db, true) := by
  simp [insert_log, h]

lemma insert_log_absent (db : DBState) (d : String) (s : Bool) (r : String) (t : Int)
    (hx : String) (now : Int) (h : hashPresent db hx = false) :
    insert_log false db d s r t hx now =
      ({ db with logs := db.logs ++ [⟨db.nextId, d, s, r, t, hx, now⟩],
                 nextId := db.nextId + 1 }, true) := by
  simp [insert_log, h]

lemma insert_log_snd (f : Bool) (db : DBState) (d : String) (s : Bool) (r : String) (t : Int)
    (hx : String) (now : Int) : (insert_log f db d s r t hx now).2 = !f := by
  by_cases hf : f <;> by_cases hp : hashPresent db hx <;> simp [insert_log, hf, hp]

lemma hashPresent_insert_log (f : Bool) (db : DBState) (d : String) (s : Bool) (r : String)
    (t : Int) (hx2 : String) (now : Int) {hx : String} (h : hashPresent db hx = true) :
    hashPresent (insert_log f db d s r t hx2 now).1 hx = true := by
  by_cases hf : f
  · simpa [insert_log, hf]
  · by_cases hp : hashPresent db hx2
    · simpa [insert_log, hf, hp]
    · simp only [insert_log, hf, hp]
      simp only [hashPresent] at h ⊢
      simp [List.any_append, h]

lemma hashPresent_insert_log_self (db : DBState) (d : String) (s : Bool) (r : String)
    (t : Int) (hx : String) (now : Int) :
    hashPresent (insert_log false db d s r t hx now).1 hx = true := by
  by_cases hp : hashPresent db hx
  · simp [insert_log, hp]
  · simp only [insert_log, hp]
    simp [hashPresent, List.any_append]

/-! ### Lemmas about the sync fold -/

lemma foldInsert_cons (db : DBState) (e : LogEvent) (evs : List LogEvent) (now : Int) :
    foldInsert db (e :: evs) now =
      foldInsert (insert_log false db e.device e.success e.reason e.timestamp e.tx_hash now).1
        evs now := by
  simp [foldInsert]

lemma hashPresent_foldInsert (evs : List LogEvent) (db : DBState) (now : Int) {hx : String}
    (h : hashPresent db hx = true) : hashPresent (foldInsert db evs now) hx = true := by
  induction evs generalizing db with
  | nil => simp only [foldInsert, List.foldl_nil]; exact h
  | cons e es ih =>
      rw [foldInsert_cons]
      exact ih _ (hashPresent_insert_log false db e.device e.success e.reason e.timestamp
        e.tx_hash now h)

lemma foldInsert_all_present (evs : List LogEvent) (db : DBState) (now : Int) :
    ∀ e ∈ evs, hashPresent (foldInsert db evs now) e.tx_hash = true := by
  induction evs generalizing db with
  | nil => intro e he; cases he
  | cons e es ih =>
      intro e2 he2
      rw [foldInsert_cons]
      rcases List.mem_cons.mp he2 with rfl | hmem
      · exact hashPresent_foldInsert es _ now
          (hashPresent_insert_log_self db e2.device e2.success e2.reason e2.timestamp
            e2.tx_hash now)
      · exact ih _ e2 hmem

lemma foldInsert_noop (evs : List LogEvent) (db : DBState) (now : Int)
    (h : ∀ e ∈ evs, hashPresent db e.tx_hash = true) : foldInsert db evs now = db := by
  induction evs with
  | nil => simp [foldInsert]
  | cons e es ih =>
      rw [foldInsert_cons, insert_log_present db e.device e.success e.reason e.timestamp
        e.tx_hash now (h e (by simp))]
      exact ih fun e2 he2 => h e2 (by simp [he2])

/-! ### Preservation of the store invariants -/

lemma hashesNodup_insert_log (f : Bool) (db : DBState) (d : String) (s : Bool) (r : String)
    (t : Int) (hx : String) (now : Int) (h : hashesNodup db) :
    hashesNodup (insert_log f db d s r t hx now).1 := by
  by_cases hf : f
  · simpa [insert_log, hf]
  · by_cases hp : hashPresent db hx
    · simpa [insert_log, hf, hp]
    · simp only [insert_log, hf, hp, Bool.false_eq_true, if_false, if_true]
      simp only [hashesNodup, List.map_append, List.map_cons, List.map_nil] at h ⊢
      rw [List.nodup_append]
      refine ⟨h, List.nodup_singleton _, ?_⟩
      intro a ha hb
      simp only [List.mem_singleton] at hb
      subst hb
      rcases List.mem_map.mp ha with ⟨row, hrow, hhash⟩
      have hpres : hashPresent db a = true := hashPresent_iff.mpr ⟨row, hrow, hhash⟩
      simp [hpres] at hp

lemma hashesNodup_applyInserts (ops : List InsertLogCall) (db : DBState) (h : hashesNodup db) :
    hashesNodup (applyInserts db ops) := by
  induction ops generalizing db with
  | nil => simpa [applyInserts]
  | cons o os ih =>
      simp only [applyInserts, List.foldl_cons]
      exact ih _ (hashesNodup_insert_log o.fail db o.device o.success o.reason o.timestamp
        o.tx_hash o.now h)

lemma idBounded_insert_log (f : Bool) (db : DBState) (d : String) (s : Bool) (r : String)
    (t : Int) (hx : String) (now : Int) (h : idBounded db) :
    idBounded (insert_log f db d s r t hx now).1 := by
  rcases h with ⟨hp, hb⟩
  by_cases hf : f
  · simpa [insert_log, hf] using ⟨hp, hb⟩
  · by_cases hpr : hashPresent db hx
    · simpa [insert_log, hf, hpr] using ⟨hp, hb⟩
    · simp only [insert_log, hf, hpr, Bool.false_eq_true, if_false, if_true]
      constructor
      · rw [List.pairwise_append]
        refine ⟨hp, List.pairwise_singleton _ _, ?_⟩
        intro a ha b hb2
        simp only [List.mem_singleton] at hb2
        subst hb2
        exact hb a ha
      · intro row hrow
        simp only [List.mem_append, List.mem_singleton] at hrow
        rcases hrow with hrow | rfl
        · exact Nat.lt_succ_of_lt (hb row hrow)
        · exact Nat.lt_succ_self _

lemma idBounded_applyInserts (ops : List InsertLogCall) (db : DBState) (h : idBounded db) :
    idBounded (applyInserts db ops) := by
  induction ops generalizing db with
  | nil => simpa [applyInserts]
  | cons o os ih =>
      simp only [applyInserts, List.foldl_cons]
      exact ih _ (idBounded_insert_log o.fail db o.device o.success o.reason o.timestamp
        o.tx_hash o.now h)

lemma idBounded_empty : idBounded emptyDB := by
  constructor <;> simp [emptyDB]

lemma hashesNodup_empty : hashesNodup emptyDB := by
  simp [hashesNodup, emptyDB]

/-! ### The descending stable sort underlying `fetch_logs` -/

lemma insertByTs_perm (x : LogRow) (s : List LogRow) : (insertByTs x s).Perm (x :: s) := by
  induction s with
  | nil => simp [insertByTs]
  | cons y ys ih =>
      by_cases h : y.timestamp ≤ x.timestamp
      · simp [insertByTs, h]
      · simp only [insertByTs, if_neg h]
        exact (ih.cons y).trans (List.Perm.swap x y ys)

lemma sortLogsDesc_perm (l : List LogRow) : (sortLogsDesc l).Perm l := by
  induction l with
  | nil => simp [sortLogsDesc]
  | cons x xs ih => exact (insertByTs_perm x (sortLogsDesc xs)).trans (ih.cons x)

lemma relDesc_of_le_id {x z : LogRow} (hts : z.timestamp ≤ x.timestamp) (hid : x.id < z.id) :
    relDesc x z := by
  rcases lt_or_eq_of_le hts with h | h
  · exact Or.inl h
  · exact Or.inr ⟨h.symm, hid⟩

lemma relDesc_ts_le {a b : LogRow} (h : relDesc a b) : b.timestamp ≤ a.timestamp := by
  rcases h with h | ⟨h, _⟩
  · exact le_of_lt h
  · exact le_of_eq h.symm

lemma pairwise_insertByTs (x : LogRow) (s : List LogRow) (hs : s.Pairwise relDesc)
    (hid : ∀ y ∈ s, x.id < y.id) : (insertByTs x s).Pairwise relDesc := by
  induction s with
  | nil => simp [insertByTs]
  | cons y ys ih =>
      rcases List.pairwise_cons.mp hs with ⟨hy, hys⟩
      by_cases h : y.timestamp ≤ x.timestamp
      · simp only [insertByTs, if_pos h]
        refine List.pairwise_cons.mpr ⟨?_, hs⟩
        intro z hz
        rcases List.mem_cons.mp hz with rfl | hzys
        · exact relDesc_of_le_id h (hid z (by simp))
        · exact relDesc_of_le_id (le_trans (relDesc_ts_le (hy z hzys)) h)
            (hid z (by simp [hzys]))
      · simp only [insertByTs, if_neg h]
        refine List.pairwise_cons.mpr ⟨?_, ih hys fun z hz => hid z (by simp [hz])⟩
        intro w hw
        rcases List.mem_cons.mp ((insertByTs_perm x ys).mem_iff.mp hw) with rfl | hwys
        · exact Or.inl (lt_of_not_le h)
        · exact hy w hwys

lemma pairwise_sortLogsDesc (l : List LogRow) (hl : l.Pairwise fun a b => a.id < b.id) :
    (sortLogsDesc l).Pairwise relDesc := by
  induction l with
  | nil => simp [sortLogsDesc]
  | cons x xs ih =>
      rcases List.pairwise_cons.mp hl with ⟨hx, hxs⟩
      simp only [sortLogsDesc]
      exact pairwise_insertByTs x (sortLogsDesc xs) (ih hxs)
        fun y hy => hx y ((sortLogsDesc_perm xs).mem_iff.mp hy)

/-! ### Lemmas about `insert_device` and `get_device` -/

lemma find?_append_right {α : Type} (p : α → Bool) (l₁ l₂ : List α)
    (h : ∀ a ∈ l₁, p a = false) : (l₁ ++ l₂).find? p = l₂.find? p := by
  induction l₁ with
  | nil => rfl
  | cons x xs ih =>
      have hx : ¬ p x = true := by simp [h x (List.mem_cons_self x xs)]
      simp only [List.cons_append]
      rw [List.find?_cons_of_neg _ hx]
      exact ih fun a ha => h a (List.mem_cons_of_mem x ha)

lemma get_device_insert_self (db : DBState) (a n r m : String) (ra now : Int) :
    get_device false (insert_device false db a n r m ra now).1 a =
      some ⟨a, n, r, m, ra, now⟩ := by
  simp only [insert_device, get_device, Bool.false_eq_true, if_false]
  rw [find?_append_right]
  · simp [List.find?]
  · intro x hx
    rcases List.mem_filter.mp hx with ⟨_, hpx⟩
    simpa using hpx

lemma filter_addr_insert (db : DBState) (a n r m : String) (ra now : Int) :
    ((insert_device false db a n r m ra now).1.devices.filter fun d => d.address == a) =
      [⟨a, n, r, m, ra, now⟩] := by
  simp only [insert_device, Bool.false_eq_true, if_false]
  rw [List.filter_append, List.filter_filter]
  simp

lemma addrNodup_insert_device (f : Bool) (db : DBState) (a n r m : String) (ra now : Int)
    (h : addrNodup db) : addrNodup (insert_device f db a n r m ra now).1 := by
  by_cases hf : f
  · simpa [insert_device, hf]
  · simp only [insert_device, hf, Bool.false_eq_true, if_false]
    simp only [addrNodup, List.map_append, List.map_cons, List.map_nil] at h ⊢
    rw [List.nodup_append]
    refine ⟨h.sublist (List.Sublist.map _ (List.filter_sublist _)), List.nodup_singleton _, ?_⟩
    intro x hx hmem
    simp only [List.mem_singleton] at hmem
    subst hmem
    rcases List.mem_map.mp hx with ⟨row, hrow, haddr⟩
    rcases List.mem_filter.mp hrow with ⟨_, hprow⟩
    simp [haddr] at hprow

lemma addrNodup_applyDeviceInserts (ops : List DeviceCall) (db : DBState) (h : addrNodup db) :
    addrNodup (applyDeviceInserts db ops) := by
  induction ops generalizing db with
  | nil => simpa [applyDeviceInserts]
  | cons o os ih =>
      simp only [applyDeviceInserts, List.foldl_cons]
      exact ih _ (addrNodup_insert_device o.fail db o.address o.name o.role o.metadata
        o.registered_at o.now h)

lemma addrNodup_empty : addrNodup emptyDB := by
  simp [addrNodup, emptyDB]

/-! ### Claim theorems -/

/-- C1: for every sequence of `insert_log` calls starting from a fresh
store, the stored `txHash` values are pairwise distinct (at most one row
per hash); and a call whose `txHash` is already present leaves the store
— every existing row with its `reason` and `timestamp` — completely
unchanged while still returning `True`, not an error. -/
theorem log_store_unique_txHash_invariant (ops : List InsertLogCall) (db : DBState)
    (d : String) (s : Bool) (r : String) (t : Int) (hx : String) (now : Int)
    (hpres : hashPresent db hx = true) :
    ((applyInserts emptyDB ops).logs.map LogRow.txHash).Nodup ∧
    insert_log false db d s r t hx now = (db, true) :=
  ⟨hashesNodup_applyInserts ops emptyDB hashesNodup_empty,
   insert_log_present db d s r t hx now hpres⟩

/-- C1 witness: a duplicate pair of "h1" inserts still leaves distinct
stored hashes, and re-inserting "h" into `dbOneLog` is a no-op returning
`True`. -/
theorem log_store_unique_txHash_invariant_witness :
    ((applyInserts emptyDB
        [⟨false, "dA", true, "r1", 100, "h1", 1⟩,
         ⟨false, "dB", false, "r2", 100, "h1", 2⟩]).logs.map LogRow.txHash).Nodup ∧
    insert_log false dbOneLog "d2" false "other" 7 "h" 11 = (dbOneLog, true) :=
  log_store_unique_txHash_invariant
    [⟨false, "dA", true, "r1", 100, "h1", 1⟩, ⟨false, "dB", false, "r2", 100, "h1", 2⟩]
    dbOneLog "d2" false "other" 7 "h" 11 (by decide)

/-- C2 counterexample: with the ledger fetch failing ("ledger
unreachable"), `sync_cache` takes no action on the store but reports
`status = success` — not the failure the claim asserts (neither the
`error` nor the `failed` status of the envelope convention). -/
theorem sync_cache_fetch_failure_cex :
    (sync_cache (Except.error "ledger unreachable") emptyDB 0).1 = emptyDB ∧
    (sync_cache (Except.error "ledger unreachable") emptyDB 0).2.status = Status.success ∧
    (sync_cache (Except.error "ledger unreachable") emptyDB 0).2.status ≠ Status.error ∧
    (sync_cache (Except.error "ledger unreachable") emptyDB 0).2.status ≠ Status.failed := by
  refine ⟨rfl, rfl, ?_, ?_⟩ <;> decide

/-- C2 amended: if the event-fetch step fails, no action at all is taken
on the store — the state is exactly as before the call — but the sync
reports success ("Cache synced") to the caller rather than failure. -/
theorem sync_cache_fetch_failure_no_write_still_success (db : DBState) (msg : String)
    (now : Int) :
    sync_cache (Except.error msg) db now =
      (db, { status := Status.success, message := some "Cache synced" }) := rfl

/-- C3 counterexample: re-inserting txHash "h" into `dbOneLog` returns
exactly the same outcome `true` that the original fresh insert of "h"
returned, so the "already present" case is not distinguishable from
"newly inserted" by the call's result. -/
theorem insert_log_outcome_indistinguishable_cex :
    (insert_log false dbOneLog "d" true "r2" 6 "h" 10).2 =
      (insert_log false emptyDB "d" true "r" 5 "h" 9).2 ∧
    (insert_log false dbOneLog "d" true "r2" 6 "h" 10).2 = true := by
  constructor <;> decide

/-- C3 amended: a duplicate-`txHash` insert is treated as success — the
store is left unchanged and `True` is returned, never an error — but it
returns the very same `True` as a fresh insert, so the caller cannot
distinguish "already present" from "newly inserted". -/
theorem insert_log_duplicate_success (db : DBState) (d : String) (s : Bool) (r : String)
    (t : Int) (hx : String) (now : Int) (hpres : hashPresent db hx = true) :
    insert_log false db d s r t hx now = (db, true) ∧
    (insert_log false emptyDB d s r t hx now).2 = true :=
  ⟨insert_log_present db d s r t hx now hpres,
   by simpa using insert_log_snd false emptyDB d s r t hx now⟩

/-- C3 amended witness. -/
theorem insert_log_duplicate_success_witness :
    insert_log false dbOneLog "x" false "dup" 8 "h" 12 = (dbOneLog, true) ∧
    (insert_log false emptyDB "x" false "dup" 8 "h" 12).2 = true :=
  insert_log_duplicate_success dbOneLog "x" false "dup" 8 "h" 12 (by decide)

/-- C4 counterexample: on a store holding one row, `fetch_logs` with
limit `-1` returns that row — all rows — not the empty sequence the
claim asserts for every `limit <= 0`. -/
theorem fetch_logs_negative_limit_cex :
    fetch_logs false dbOneLog (-1) = [⟨1, "d", true, "r", 5, "h", 9⟩] ∧
    fetch_logs false dbOneLog (-1) ≠ [] := by
  constructor <;> decide

/-- C4 amended: `fetch_logs 0` returns the empty sequence, and a
negative limit returns all stored rows (SQLite treats a negative `LIMIT`
as "no upper bound") — in both cases a normal result, not an error. -/
theorem fetch_logs_limit_boundary (db : DBState) (l : Int) (hneg : l < 0) :
    fetch_logs false db 0 = [] ∧ (fetch_logs false db l).Perm db.logs := by
  constructor
  · simp [fetch_logs]
  · simp only [fetch_logs, Bool.false_eq_true, if_false, if_pos hneg]
    exact sortLogsDesc_perm db.logs

/-- C4 amended witness. -/
theorem fetch_logs_limit_boundary_witness :
    fetch_logs false dbOneLog 0 = [] ∧ (fetch_logs false dbOneLog (-1)).Perm dbOneLog.logs :=
  fetch_logs_limit_boundary dbOneLog (-1) (by decide)

/-- C5 counterexample: two rows share timestamp 100; `fetch_logs`
returns the row inserted first (id 1) before the row inserted second
(id 2) — ascending id order for ties, not the descending
"most recently inserted first" order the claim asserts. -/
theorem fetch_logs_tie_order_cex :
    (fetch_logs false dbTie 2).map LogRow.id = [1, 2] ∧
    (fetch_logs false dbTie 2).map LogRow.id ≠ [2, 1] := by
  constructor <;> decide

/-- C5 amended: for every store reachable by `insert_log` calls from a
fresh store and every positive limit, `fetch_logs` returns at most
`limit` entries ordered by timestamp descending, with equal timestamps
in ascending id (insertion) order; on timestamps [100, 300, 200] it
returns [300, 200, 100]. -/
theorem fetch_logs_ordering (ops : List InsertLogCall) (limit : Int) (hpos : 0 < limit) :
    (fetch_logs false (applyInserts emptyDB ops) limit).length ≤ limit.toNat ∧
    (fetch_logs false (applyInserts emptyDB ops) limit).Pairwise relDesc ∧
    (fetch_logs false dbOrdering 3).map LogRow.timestamp = [300, 200, 100] := by
  have hnn : ¬ limit < 0 := by omega
  refine ⟨?_, ?_, by decide⟩
  · simp only [fetch_logs, Bool.false_eq_true, if_false, if_neg hnn]
    exact List.length_take_le _ _
  · simp only [fetch_logs, Bool.false_eq_true, if_false, if_neg hnn]
    exact List.Pairwise.sublist (List.take_sublist _ _)
      (pairwise_sortLogsDesc _ (idBounded_applyInserts ops emptyDB idBounded_empty).1)

/-- C5 amended witness. -/
theorem fetch_logs_ordering_witness :
    (fetch_logs false (applyInserts emptyDB
        [⟨false, "dA", true, "r1", 100, "h1", 1⟩,
         ⟨false, "dB", false, "r2", 100, "h2", 2⟩]) 2).length ≤ (2 : Int).toNat ∧
    (fetch_logs false (applyInserts emptyDB
        [⟨false, "dA", true, "r1", 100, "h1", 1⟩,
         ⟨false, "dB", false, "r2", 100, "h2", 2⟩]) 2).Pairwise relDesc ∧
    (fetch_logs false dbOrdering 3).map LogRow.timestamp = [300, 200, 100] :=
  fetch_logs_ordering
    [⟨false, "dA", true, "r1", 100, "h1", 1⟩, ⟨false, "dB", false, "r2", 100, "h2", 2⟩]
    2 (by decide)

/-- C6: running `sync_cache` twice in succession with the ledger
returning the same event records both times yields identical `get_stats`
totals after the first call and after the second (the second pass finds
every `txHash` already present and inserts nothing). -/
theorem sync_cache_idempotent_stats (db : DBState) (evs : List LogEvent) (now1 now2 : Int) :
    get_stats false (sync_cache (Except.ok evs)
        (sync_cache (Except.ok evs) db now1).1 now2).1 =
      get_stats false (sync_cache (Except.ok evs) db now1).1 := by
  have hnoop : foldInsert (foldInsert db evs now1) evs now2 = foldInsert db evs now1 :=
    foldInsert_noop evs _ now2 (foldInsert_all_present evs db now1)
  simp [sync_cache, hnoop]

/-- C7: `insert_device` is a full-overwrite upsert keyed by address:
caching address `a` with name `nX` and then again with name `nY` leaves
exactly one row for `a`, carrying name `nY`; and every store reachable
by `insert_device` calls from a fresh store has pairwise-distinct cached
addresses (at most one row per address). -/
theorem insert_device_upsert_overwrite (db : DBState) (a nX rX mX nY rY mY : String)
    (raX tX raY tY : Int) (ops : List DeviceCall) :
    ((insert_device false (insert_device false db a nX rX mX raX tX).1
        a nY rY mY raY tY).1.devices.filter fun d => d.address == a) =
      [⟨a, nY, rY, mY, raY, tY⟩] ∧
    ((applyDeviceInserts emptyDB ops).devices.map DeviceRow.address).Nodup :=
  ⟨filter_addr_insert _ a nY rY mY raY tY,
   addrNodup_applyDeviceInserts ops emptyDB addrNodup_empty⟩

/-- C8 counterexample: address "0xA" is cached with `registered_at` 100
and then re-cached with 200; the stored `registeredAt` after the second
upsert is 200, not the first-write value 100 the claim requires. -/
theorem insert_device_registeredAt_cex :
    (get_device false dbDeviceTwice "0xA").map DeviceRow.registeredAt = some 200 ∧
    (get_device false dbDeviceTwice "0xA").map DeviceRow.registeredAt ≠ some 100 := by
  constructor <;> decide

/-- C8 amended: `insert_device` overwrites the whole row on every upsert
of the same address: afterwards the cached row holds exactly the
supplied fields, so `registeredAt` becomes the supplied `registered_at`
argument of the latest write (it survives a re-upsert only if the caller
re-supplies the original value) and `updatedAt` is refreshed to the
write time. -/
theorem insert_device_overwrites_row (db : DBState) (a n r m : String) (ra now : Int) :
    get_device false (insert_device false db a n r m ra now).1 a =
      some ⟨a, n, r, m, ra, now⟩ :=
  get_device_insert_self db a n r m ra now

/-- C9: every facade operation taking a device address — register_device,
grant_access, revoke_access, assign_role, check_access and
get_device_info — rejects an invalid Ethereum address immediately,
returning the "Invalid Ethereum address" error envelope with no contract
function invoked on the ledger (empty call trace) and the cache state
untouched. -/
theorem facade_rejects_invalid_address (L : Ledger) (db : DBState)
    (addr name role metadata : String) (expiry : Int)
    (h : validate_address addr = false) :
    register_device L db addr name role metadata = (invalidAddressResp, [], db) ∧
    grant_access L db addr expiry = (invalidAddressResp, [], db) ∧
    revoke_access L db addr = (invalidAddressResp, [], db) ∧
    assign_role L db addr role = (invalidAddressResp, [], db) ∧
    check_access L db addr = (invalidAddressResp, [], db) ∧
    get_device_info L db addr = (invalidAddressResp, [], db) := by
  refine ⟨?_, ?_, ?_, ?_, ?_, ?_⟩ <;>
    simp [register_device, grant_access, revoke_access, assign_role, check_access,
      get_device_info, h]

/-- C9 witness at the malformed address "not-an-address". -/
theorem facade_rejects_invalid_address_witness :
    register_device ledgerW emptyDB "not-an-address" "Device1" "sensor" "" =
      (invalidAddressResp, [], emptyDB) ∧
    grant_access ledgerW emptyDB "not-an-address" 0 = (invalidAddressResp, [], emptyDB) ∧
    revoke_access ledgerW emptyDB "not-an-address" = (invalidAddressResp, [], emptyDB) ∧
    assign_role ledgerW emptyDB "not-an-address" "sensor" =
      (invalidAddressResp, [], emptyDB) ∧
    check_access ledgerW emptyDB "not-an-address" = (invalidAddressResp, [], emptyDB) ∧
    get_device_info ledgerW emptyDB "not-an-address" = (invalidAddressResp, [], emptyDB) :=
  facade_rejects_invalid_address ledgerW emptyDB "not-an-address" "Device1" "sensor" "" 0
    (by decide)

/-- C10: on a storage failure every read operation returns exactly what
it returns on an empty healthy store: `fetch_logs` and `get_device_logs`
the empty list, `get_device` `none` (indistinguishable from "not
found"), and `get_stats` zero counts — never an error. -/
theorem read_ops_storage_failure_as_empty (db : DBState) (limit : Int) (a : String) :
    fetch_logs true db limit = fetch_logs false emptyDB limit ∧
    get_device_logs true db a limit = get_device_logs false emptyDB a limit ∧
    get_device true db a = get_device false emptyDB a ∧
    get_stats true db = get_stats false emptyDB ∧
    fetch_logs true db limit = [] ∧
    get_device_logs true db a limit = [] ∧
    get_device true db a = none ∧
    get_stats true db = ⟨0, 0⟩ := by
  refine ⟨?_, ?_, ?_, ?_, rfl, rfl, rfl, rfl⟩ <;>
    simp [fetch_logs, get_device_logs, get_device, get_stats, emptyDB, sortLogsDesc]
